import Mathlib

/-!
Shallow embedding of the wake-on-LAN core of the `wol` repository
(`magicpacket/magicpacket.go` and `cmd/serve.go`), together with proofs of
the behavioural properties claimed by the specification.

Bytes are modelled as `Nat` values below 256 where it matters; slices as
`List Nat`.  The network is modelled as an explicit "world" value that
predetermines the outcome of every fallible operation (interface
enumeration, per-address dials and writes, the fallback send, pinger
construction and echo runs), so every function of the source becomes a
pure Lean function of the world.
-/

namespace Wol

/-- Semantics of Go `copy(dst[off:], src)`: overwrite `dst` starting at
offset `off` with as much of `src` as fits, leaving the rest of `dst`
unchanged.  The number of bytes copied is `min src.length (dst.length - off)`. -/
def goCopyAt (dst : List Nat) (off : Nat) (src : List Nat) : List Nat :=
  dst.take off ++ src.take (dst.length - off)
    ++ dst.drop (off + min src.length (dst.length - off))

/-- The packet built inline at the top of `MagicPacket.Broadcast`:
`packet := make([]byte, 102)`, first 6 bytes set to `0xFF` one by one,
then `copy(packet[i*6:], mac)` for `i = 1..16`. -/
def broadcastBuildPacket (mac : List Nat) : List Nat :=
  let packet := List.replicate 102 0
  let packet := (List.range 6).foldl (fun p i => p.set i 255) packet
  (List.range' 1 16).foldl (fun p i => goCopyAt p (i * 6) mac) packet

/-- The packet built inline at the top of `MagicPacket.Send`; the Go source
repeats the same two loops verbatim, so this is a second embedding of that
second occurrence. -/
def sendBuildPacket (mac : List Nat) : List Nat :=
  let packet := List.replicate 102 0
  let packet := (List.range 6).foldl (fun p i => p.set i 255) packet
  (List.range' 1 16).foldl (fun p i => goCopyAt p (i * 6) mac) packet

/-! ### Transmission engine (`MagicPacket.Broadcast`)

The network is a `BroadcastWorld`: the result of `net.Interfaces()`, the
flags, `Addrs()` result and per-address dial/write outcomes of every
interface, and the outcome of the fallback send to 255.255.255.255:9.
Error values carried by the world are opaque `Nat` codes so that error
identity (which error the function returns) can be stated. -/

/-- The three interface flags tested by `Broadcast`:
`iface.Flags&net.FlagLoopback`, `&net.FlagUp`, `&net.FlagBroadcast`. -/
structure IfaceFlags where
  loopback : Bool
  up : Bool
  broadcast : Bool
deriving DecidableEq, Repr

/-- Predetermined outcome of one UDP send attempt: `net.DialUDP` fails,
or the dial succeeds and `conn.Write` fails, or both succeed. -/
inductive SendOutcome where
  | dialErr (e : Nat)
  | writeErr (e : Nat)
  | ok
deriving DecidableEq, Repr

/-- One element of `iface.Addrs()`: either not a `*net.IPNet` (the type
assertion fails), or an `IPNet` whose `IP.To4()` is `to4` (`none` models a
nil result) with subnet mask `mask`, together with the predetermined
outcome of the send to its directed-broadcast address. -/
inductive AddrInfo where
  | notIPNet
  | ipNet (to4 : Option (List Nat)) (mask : List Nat) (outcome : SendOutcome)
deriving DecidableEq, Repr

/-- One element of `net.Interfaces()`: its flags and the result of its
`Addrs()` call. -/
structure NetIface where
  flags : IfaceFlags
  addrs : Except Nat (List AddrInfo)

/-- Everything `Broadcast` observes from the network. -/
structure BroadcastWorld where
  interfaces : Except Nat (List NetIface)
  fallback : SendOutcome

/-- Mask narrowing: when the mask has the 16-byte form and the address the
4-byte form, keep only the trailing 4 mask bytes, as in the source line
comparing len(mask) with net.IPv6len and len(ip4) with net.IPv4len. -/
def narrowMask (ip4 mask : List Nat) : List Nat :=
  if mask.length = 16 ∧ ip4.length = 4 then mask.drop 12 else mask

/-- The broadcast-address loop, setting octet i to ip4[i] OR NOT mask[i].
Complementing a `byte` value b is `255 ^^^ b` for `b < 256`; the `% 256`
keeps the embedding total on out-of-range naturals. -/
def computeBroadcastIP (ip4 mask : List Nat) : List Nat :=
  (List.range ip4.length).map (fun i => Nat.lor (ip4.getD i 0) (255 ^^^ (mask.getD i 0 % 256)))

/-- A dialled UDP destination.  The constructor records which code path
produced it: a per-interface directed-broadcast send, or the single
global-broadcast fallback send. -/
inductive Target where
  | directed (ip : List Nat) (port : Nat)
  | globalBcast (ip : List Nat) (port : Nat)
deriving DecidableEq, Repr

/-- The fallback destination: `net.IPv4bcast` = 255.255.255.255, port 9. -/
def globalTarget : Target := .globalBcast [255, 255, 255, 255] 9

/-- The mutable state of the interface loop of `Broadcast`: the `sent` and
`lastErr` variables, plus the list of dial attempts made so far, kept so
that which sends were attempted is statable. -/
structure LoopState where
  sent : Bool
  lastErr : Option Nat
  attempts : List Target
deriving DecidableEq, Repr

/-- Body of the inner `for _, addr := range addrs` loop. -/
def addrStep (s : LoopState) (a : AddrInfo) : LoopState :=
  match a with
  | .notIPNet => s
  | .ipNet none _ _ => s
  | .ipNet (some ip4) mask outcome =>
      let bip := computeBroadcastIP ip4 (narrowMask ip4 mask)
      match outcome with
      | .dialErr e =>
          { s with lastErr := some e, attempts := s.attempts ++ [.directed bip 9] }
      | .writeErr e =>
          { s with lastErr := some e, attempts := s.attempts ++ [.directed bip 9] }
      | .ok =>
          { s with sent := true, attempts := s.attempts ++ [.directed bip 9] }

/-- Skip condition of the outer loop: continue unless the interface is
not loopback, is up, and is broadcast-capable. -/
def ifaceEligible (i : NetIface) : Bool :=
  !i.flags.loopback && i.flags.up && i.flags.broadcast

/-- Body of the outer `for _, iface := range ifaces` loop (an `Addrs()`
error skips the interface). -/
def ifaceStep (s : LoopState) (i : NetIface) : LoopState :=
  if ifaceEligible i then
    match i.addrs with
    | .error _ => s
    | .ok addrs => addrs.foldl addrStep s
  else s

/-- The whole interface loop, started with `sent = false`, `lastErr = nil`. -/
def sendLoop (ifaces : List NetIface) : LoopState :=
  ifaces.foldl ifaceStep { sent := false, lastErr := none, attempts := [] }

/-- Result of `Broadcast`, with error identity preserved: `rawErr e` is an
error value returned verbatim, `wrappedErr e` is
`fmt.Errorf("failed to send packet: %v (last error)", e)` — a fresh error
wrapping `e`, distinct from returning `e` itself. -/
inductive BroadcastResult where
  | success
  | rawErr (e : Nat)
  | wrappedErr (e : Nat)
deriving DecidableEq, Repr

/-- The whole of `MagicPacket.Broadcast` after the packet is built: the returned value
paired with the list of dial attempts it makes, in order. -/
def broadcastRun (w : BroadcastWorld) : BroadcastResult × List Target :=
  match w.interfaces with
  | .error e => (.rawErr e, [])
  | .ok ifaces =>
      let s := sendLoop ifaces
      if s.sent then (.success, s.attempts)
      else
        match w.fallback with
        | .dialErr e =>
            match s.lastErr with
            | some l => (.wrappedErr l, s.attempts ++ [globalTarget])
            | none => (.rawErr e, s.attempts ++ [globalTarget])
        | .writeErr e => (.rawErr e, s.attempts ++ [globalTarget])
        | .ok => (.success, s.attempts ++ [globalTarget])

/-- An address element on which the send succeeds: it is a `*net.IPNet`,
`To4()` is non-nil, and both dial and write succeed. -/
def addrSendOk : AddrInfo → Bool
  | .ipNet (some _) _ .ok => true
  | _ => false

/-- An eligible interface on which at least one address send succeeds. -/
def ifaceAnyOk (i : NetIface) : Bool :=
  ifaceEligible i &&
    (match i.addrs with
     | .error _ => false
     | .ok addrs => addrs.any addrSendOk)

/-- At least one of the per-interface sends of this run succeeds. -/
def anySendSuccess (ifaces : List NetIface) : Bool :=
  ifaces.any ifaceAnyOk

/-- The error (if any) that an address element makes the loop record in
`lastErr`: its dial or write error, for attempted sends only. -/
def addrErr : AddrInfo → Option Nat
  | .ipNet (some _) _ (.dialErr e) => some e
  | .ipNet (some _) _ (.writeErr e) => some e
  | _ => none

/-- The errors an interface contributes to `lastErr`, in attempt order. -/
def ifaceErrList (i : NetIface) : List Nat :=
  if ifaceEligible i then
    match i.addrs with
    | .error _ => []
    | .ok addrs => addrs.filterMap addrErr
  else []

/-- All per-interface send errors of the run, in attempt order; the final
`lastErr` is the last element of this list. -/
def allErrList (ifaces : List NetIface) : List Nat :=
  (ifaces.map ifaceErrList).flatten

/-! ### Reachability poller (`cmd/serve.go`) -/

/-- The fields set on the pinger before `Run()`:
`pinger.Timeout = 2 * time.Second`, `pinger.Count = 1`,
`pinger.SetPrivileged(cfg.Ping.Privileged)`. -/
structure PingConfig where
  timeoutSeconds : Nat
  count : Nat
  privileged : Bool
deriving DecidableEq, Repr

/-- The probing primitive: the outcome of `probing.NewPinger(addr)` and,
for a constructed pinger, the outcome of `pinger.Run()` under a given
configuration — an error, or the `Statistics().PacketsRecv` count. -/
structure PingWorld where
  newPinger : String → Except Nat Unit
  runPing : String → PingConfig → Except Nat Nat

/-- The two error shapes produced by `isAddressReachable`:
`fmt.Errorf("error creating pinger: %v", err)` and
`fmt.Errorf("error pinging: %v", err)`. -/
inductive ProbeError where
  | creating (e : Nat)
  | pinging (e : Nat)
deriving DecidableEq, Repr

/-- One machine of the configuration: its name and optional IP. -/
structure Machine where
  name : String
  ip : Option String
deriving DecidableEq, Repr

/-- The function `isAddressReachable` paired with the trace of `Run()`
calls it performs, each recorded with the configuration in force. -/
def isAddressReachable (w : PingWorld) (priv : Bool) (addr : String) :
    Except ProbeError Bool × List (String × PingConfig) :=
  match w.newPinger addr with
  | .error e => (.error (.creating e), [])
  | .ok _ =>
      let cfg : PingConfig := { timeoutSeconds := 2, count := 1, privileged := priv }
      match w.runPing addr cfg with
      | .error e => (.error (.pinging e), [(addr, cfg)])
      | .ok recvd => (if recvd = 0 then .ok false else .ok true, [(addr, cfg)])

/-- The function `getMachineStatus`: the status/error pair it returns,
together with the probe trace. -/
def getMachineStatus (w : PingWorld) (priv : Bool) (m : Machine) :
    (String × Option ProbeError) × List (String × PingConfig) :=
  match m.ip with
  | none => (("unknown", none), [])
  | some addr =>
      match isAddressReachable w priv addr with
      | (.error e, tr) => (("unknown", some e), tr)
      | (.ok true, tr) => (("online", none), tr)
      | (.ok false, tr) => (("offline", none), tr)

/-- Body of one goroutine of `getMachinesStatus`: on error the goroutine
logs and returns without writing to the map; otherwise it stores the
status under the machine's name.  A map store is modelled by prepending
(`List.lookup` finds the most recent store first). -/
def statusFoldStep (w : PingWorld) (priv : Bool)
    (statuses : List (String × String)) (m : Machine) : List (String × String) :=
  match (getMachineStatus w priv m).1 with
  | (_, some _) => statuses
  | (status, none) => (m.name, status) :: statuses

/-- The function `getMachinesStatus`: the final contents of the `statuses` map.  The
goroutines are independent and each writes only its own machine's key
under the mutex, so the map contents are iteration-order independent; the
embedding runs them in configuration order. -/
def getMachinesStatus (w : PingWorld) (priv : Bool) (machines : List Machine) :
    List (String × String) :=
  machines.foldl (statusFoldStep w priv) []

/-! ### Concrete sample values used by witnesses and counterexamples -/

/-- A sample 6-byte hardware address. -/
def macEx : List Nat := [0, 26, 43, 60, 77, 94]

/-- An eligible interface whose single IPv4 address sends successfully. -/
def ifGood : NetIface :=
  { flags := { loopback := false, up := true, broadcast := true },
    addrs := .ok [.ipNet (some [192, 168, 1, 42]) [255, 255, 255, 0] .ok] }

/-- An eligible interface whose single address fails at the dial step
with error code 7. -/
def ifBad : NetIface :=
  { flags := { loopback := false, up := true, broadcast := true },
    addrs := .ok [.ipNet (some [192, 168, 1, 5]) [255, 255, 255, 0] (.dialErr 7)] }

/-- A run with one failing and one succeeding interface send. -/
def wTwoIfaces : BroadcastWorld := { interfaces := .ok [ifBad, ifGood], fallback := .dialErr 9 }

/-- A run where the only interface send fails and the fallback succeeds. -/
def wAllFail : BroadcastWorld := { interfaces := .ok [ifBad], fallback := .ok }

/-- A run where the only interface send fails with error 7 and the
fallback dial fails with error 9. -/
def wC5 : BroadcastWorld := { interfaces := .ok [ifBad], fallback := .dialErr 9 }

/-- A run where interface enumeration itself fails with error 5. -/
def wEnum : BroadcastWorld := { interfaces := .error 5, fallback := .ok }

/-- A probing world where pinger construction always fails with code 3. -/
def pingErrW : PingWorld := { newPinger := fun _ => .error 3, runPing := fun _ _ => .ok 0 }

/-- A probing world where every probe runs and receives one reply. -/
def pingOkW : PingWorld := { newPinger := fun _ => .ok (), runPing := fun _ _ => .ok 1 }

/-- A machine with a configured address. -/
def mAlpha : Machine := { name := "alpha", ip := some "10.0.0.1" }

/-- A second machine with a configured address. -/
def mBeta : Machine := { name := "beta", ip := some "10.0.0.2" }


/-! ## Theorems

### The packet builder -/

/-- `goCopyAt` never changes the length of the destination buffer. -/
theorem goCopyAt_length (dst : List Nat) (off : Nat) (src : List Nat) :
    (goCopyAt dst off src).length = dst.length := by
  simp only [goCopyAt, List.length_append, List.length_take, List.length_drop]
  omega

theorem broadcastBuildPacket_length (mac : List Nat) :
    (broadcastBuildPacket mac).length = 102 := by
  have hbase :
      ((List.range 6).foldl (fun (p : List Nat) i => p.set i 255)
        (List.replicate 102 0)).length = 102 := by
    decide
  have hfold : ∀ (l : List Nat) (p : List Nat),
      (l.foldl (fun q i => goCopyAt q (i * 6) mac) p).length = p.length := by
    intro l
    induction l with
    | nil => intro p; rfl
    | cons a t ih =>
        intro p
        simpa [List.foldl_cons, goCopyAt_length] using ih (goCopyAt p (a * 6) mac)
  simpa [broadcastBuildPacket, hbase] using
    hfold (List.range' 1 16)
      ((List.range 6).foldl (fun (p : List Nat) i => p.set i 255)
        (List.replicate 102 0))

theorem sendBuildPacket_eq_broadcastBuildPacket (mac : List Nat) :
    sendBuildPacket mac = broadcastBuildPacket mac := rfl

/-- One `copy(packet[i*6:], mac)` step turns the packet holding k copies of
the 6-byte address into the packet holding k+1 copies. -/
theorem goCopyAt_step (mac : List Nat) (h : mac.length = 6) (k : Nat) (hk : k < 16) :
    goCopyAt
      (List.replicate 6 255 ++ ((List.replicate k mac).flatten ++ List.replicate (96 - 6*k) 0))
      ((1 + k) * 6) mac
    = List.replicate 6 255
        ++ ((List.replicate (k+1) mac).flatten ++ List.replicate (96 - 6*(k+1)) 0) := by
  set A : List Nat := List.replicate 6 255 with hA
  set J : List Nat := (List.replicate k mac).flatten with hJdef
  set Z : List Nat := List.replicate (96 - 6*k) 0 with hZ
  have hJ : J.length = 6 * k := by
    simp [hJdef, List.length_flatten, h, Nat.mul_comm]
  have hlen : (A ++ (J ++ Z)).length = 102 := by
    simp [hA, hJ, hZ]; omega
  have hoff : (1 + k) * 6 = 6 + 6 * k := by ring
  have htake : (A ++ (J ++ Z)).take ((1+k)*6) = A ++ J := by
    rw [hoff, List.take_append_eq_append_take, List.take_append_eq_append_take]
    rw [List.take_of_length_le (by simp [hA])]
    have h4 : 6 + 6*k - A.length = 6*k := by simp [hA]
    rw [h4, List.take_of_length_le (by omega)]
    have h5 : 6*k - J.length = 0 := by omega
    simp [h5]
  have hmid : mac.take ((A ++ (J ++ Z)).length - (1+k)*6) = mac := by
    rw [hlen, List.take_of_length_le (by omega)]
  have hmin : min mac.length ((A ++ (J ++ Z)).length - (1+k)*6) = 6 := by
    rw [hlen, h]; omega
  have hdrop : (A ++ (J ++ Z)).drop ((1+k)*6 + 6) = List.replicate (96 - 6*(k+1)) 0 := by
    rw [hoff, List.drop_append_eq_append_drop, List.drop_append_eq_append_drop]
    have hA6 : A.length = 6 := by simp [hA]
    have h1 : 6 + 6*k + 6 - A.length = 6*k + 6 := by omega
    have h2 : 6*k + 6 - J.length = 6 := by omega
    rw [h1, h2, List.drop_of_length_le (by omega), List.drop_of_length_le (by omega)]
    simp only [List.nil_append, hZ, List.drop_replicate]
    have h3 : 96 - 6 * k - 6 = 96 - 6 * (k + 1) := by omega
    rw [h3]
  calc goCopyAt (A ++ (J ++ Z)) ((1+k)*6) mac
      = (A ++ (J ++ Z)).take ((1+k)*6) ++ mac.take ((A ++ (J ++ Z)).length - (1+k)*6)
          ++ (A ++ (J ++ Z)).drop
              ((1+k)*6 + min mac.length ((A ++ (J ++ Z)).length - (1+k)*6)) := rfl
    _ = (A ++ J) ++ mac ++ List.replicate (96 - 6*(k+1)) 0 := by rw [htake, hmid, hmin, hdrop]
    _ = A ++ ((List.replicate (k+1) mac).flatten ++ List.replicate (96 - 6*(k+1)) 0) := by
        rw [List.replicate_succ', List.flatten_append]
        simp [hJdef]

/-- After the first k iterations of the copy loop the packet holds the
synchronization stream, k copies of the address, and zero padding. -/
theorem buildLoop_closed (mac : List Nat) (h : mac.length = 6) :
    ∀ k, k ≤ 16 →
      (List.range' 1 k).foldl (fun p i => goCopyAt p (i * 6) mac)
        (List.replicate 6 255 ++ List.replicate 96 0)
      = List.replicate 6 255
          ++ ((List.replicate k mac).flatten ++ List.replicate (96 - 6*k) 0) := by
  intro k
  induction k with
  | zero => intro _; simp
  | succ n ih =>
      intro hk
      rw [List.range'_concat, List.foldl_append, ih (by omega)]
      simpa using goCopyAt_step mac h n (by omega)

/-- Closed form of the packet for a 6-byte address: the synchronization
stream followed by 16 copies of the address. -/
theorem broadcastBuildPacket_closed (mac : List Nat) (h : mac.length = 6) :
    broadcastBuildPacket mac = List.replicate 6 255 ++ (List.replicate 16 mac).flatten := by
  have hbase :
      (List.range 6).foldl (fun (p : List Nat) i => p.set i 255) (List.replicate 102 0)
        = List.replicate 6 255 ++ List.replicate 96 0 := by decide
  show (List.range' 1 16).foldl (fun p i => goCopyAt p (i * 6) mac)
      ((List.range 6).foldl (fun (p : List Nat) i => p.set i 255) (List.replicate 102 0))
    = _
  rw [hbase, buildLoop_closed mac h 16 (by omega)]
  simp

/-- Each aligned 6-byte window of the flattened repetitions is the address. -/
theorem flatten_replicate_segment (mac : List Nat) (h : mac.length = 6) :
    ∀ i n, i < n → (((List.replicate n mac).flatten).drop (6 * i)).take 6 = mac := by
  intro i
  induction i with
  | zero =>
      intro n hn
      match n, hn with
      | n + 1, _ =>
        rw [List.replicate_succ, List.flatten_cons]
        simp only [Nat.mul_zero, List.drop_zero]
        rw [List.take_append_eq_append_take, ← h, List.take_length]
        simp
  | succ j ih =>
      intro n hn
      match n, hn with
      | n + 1, hn =>
        rw [List.replicate_succ, List.flatten_cons, List.drop_append_eq_append_drop]
        rw [List.drop_of_length_le (by omega), List.nil_append, h]
        have h2 : 6 * (j + 1) - 6 = 6 * j := by omega
        rw [h2]
        exact ih n (by omega)

/-- The first six bytes of the packet are the synchronization stream. -/
theorem buildPacket_take6 (mac : List Nat) (h : mac.length = 6) :
    (broadcastBuildPacket mac).take 6 = List.replicate 6 255 := by
  rw [broadcastBuildPacket_closed mac h, List.take_append_eq_append_take]
  simp

/-- Bytes 6+6i up to 12+6i of the packet are the address, for i < 16. -/
theorem buildPacket_segments (mac : List Nat) (h : mac.length = 6) :
    ∀ i : Fin 16, ((broadcastBuildPacket mac).drop (6 + 6 * (i : Nat))).take 6 = mac := by
  intro i
  rw [broadcastBuildPacket_closed mac h, List.drop_append_eq_append_drop]
  have h1 : (List.replicate 6 (255 : Nat)).length = 6 := by simp
  rw [List.drop_of_length_le (by omega), List.nil_append, h1]
  have h2 : 6 + 6 * (i : Nat) - 6 = 6 * (i : Nat) := by omega
  rw [h2]
  exact flatten_replicate_segment mac h i 16 i.isLt

/-- C1: for every valid 6-byte hardware address m, the magic-packet payload
built by both `Broadcast` and `Send` is exactly 102 bytes long, its first
6 bytes are all 0xFF, and bytes 6+6i up to 12+6i equal m for every
repetition index i < 16. -/
theorem C1_packet_layout (mac : List Nat) (h : mac.length = 6) :
    ((broadcastBuildPacket mac).length = 102 ∧
      (broadcastBuildPacket mac).take 6 = List.replicate 6 255 ∧
      ∀ i : Fin 16, ((broadcastBuildPacket mac).drop (6 + 6 * (i : Nat))).take 6 = mac) ∧
    ((sendBuildPacket mac).length = 102 ∧
      (sendBuildPacket mac).take 6 = List.replicate 6 255 ∧
      ∀ i : Fin 16, ((sendBuildPacket mac).drop (6 + 6 * (i : Nat))).take 6 = mac) := by
  refine ⟨⟨broadcastBuildPacket_length mac, buildPacket_take6 mac h,
      buildPacket_segments mac h⟩, ?_⟩
  rw [sendBuildPacket_eq_broadcastBuildPacket]
  exact ⟨broadcastBuildPacket_length mac, buildPacket_take6 mac h, buildPacket_segments mac h⟩

/-- Witness for C1 at the sample address. -/
theorem C1_packet_layout_witness :
    macEx.length = 6 ∧
    (((broadcastBuildPacket macEx).length = 102 ∧
      (broadcastBuildPacket macEx).take 6 = List.replicate 6 255 ∧
      ∀ i : Fin 16, ((broadcastBuildPacket macEx).drop (6 + 6 * (i : Nat))).take 6 = macEx) ∧
     ((sendBuildPacket macEx).length = 102 ∧
      (sendBuildPacket macEx).take 6 = List.replicate 6 255 ∧
      ∀ i : Fin 16, ((sendBuildPacket macEx).drop (6 + 6 * (i : Nat))).take 6 = macEx)) :=
  ⟨rfl, C1_packet_layout macEx rfl⟩

/-- C9: the packet builder inlined in `Broadcast` and the one inlined in
`Send` are the same function of the stored MAC address, so for every
`MagicPacket` the two payloads are byte-for-byte identical. -/
theorem C9_builders_equal (mac : List Nat) :
    sendBuildPacket mac = broadcastBuildPacket mac := rfl

/-- C10: packet construction is total for a stored address of any length:
the buffer is always exactly 102 bytes for both builders, and the
16-repetition layout of the spec can hold only when the address is exactly
6 bytes. -/
theorem C10_build_total (mac : List Nat) :
    (broadcastBuildPacket mac).length = 102 ∧
    (sendBuildPacket mac).length = 102 ∧
    ((∀ i : Fin 16, ((broadcastBuildPacket mac).drop (6 + 6 * (i : Nat))).take 6 = mac) →
      mac.length = 6) := by
  refine ⟨broadcastBuildPacket_length mac, ?_, ?_⟩
  · rw [sendBuildPacket_eq_broadcastBuildPacket]
    exact broadcastBuildPacket_length mac
  · intro hlay
    have h0 := hlay ⟨0, by omega⟩
    have h1 : mac.length
        = (((broadcastBuildPacket mac).drop (6 + 6 * ((⟨0, by omega⟩ : Fin 16) : Nat))).take
            6).length := by
      rw [h0]
    rw [h1]
    simp only [List.length_take, List.length_drop, broadcastBuildPacket_length]
    omega

/-- Witness for C10: at the sample address the buffer has 102 bytes and the
layout hypothesis is dischargeable, forcing length 6. -/
theorem C10_build_total_witness :
    (broadcastBuildPacket macEx).length = 102 ∧ macEx.length = 6 :=
  ⟨(C10_build_total macEx).1, (C10_build_total macEx).2.2 (buildPacket_segments macEx rfl)⟩


/-! ### The transmission engine and the poller -/

theorem addrStep_sent (s : LoopState) (a : AddrInfo) :
    (addrStep s a).sent = (s.sent || addrSendOk a) := by
  cases a with
  | notIPNet => simp [addrStep, addrSendOk]
  | ipNet to4 mask outcome =>
      cases to4 with
      | none => simp [addrStep, addrSendOk]
      | some ip4 => cases outcome <;> simp [addrStep, addrSendOk]

theorem foldl_addrStep_sent (addrs : List AddrInfo) :
    ∀ s : LoopState, (addrs.foldl addrStep s).sent = (s.sent || addrs.any addrSendOk) := by
  induction addrs with
  | nil => intro s; simp
  | cons a t ih =>
      intro s
      rw [List.foldl_cons, ih, addrStep_sent, List.any_cons]
      cases s.sent <;> cases addrSendOk a <;> simp

theorem ifaceStep_sent (s : LoopState) (i : NetIface) :
    (ifaceStep s i).sent = (s.sent || ifaceAnyOk i) := by
  unfold ifaceStep ifaceAnyOk
  cases h : ifaceEligible i with
  | false => simp
  | true =>
      cases ha : i.addrs with
      | error e => simp
      | ok addrs => simp [foldl_addrStep_sent]

theorem foldl_ifaceStep_sent (ifaces : List NetIface) :
    ∀ s : LoopState, (ifaces.foldl ifaceStep s).sent = (s.sent || ifaces.any ifaceAnyOk) := by
  induction ifaces with
  | nil => intro s; simp
  | cons i t ih =>
      intro s
      rw [List.foldl_cons, ih, ifaceStep_sent, List.any_cons]
      cases s.sent <;> cases ifaceAnyOk i <;> simp

theorem sendLoop_sent (ifaces : List NetIface) :
    (sendLoop ifaces).sent = anySendSuccess ifaces := by
  rw [sendLoop, foldl_ifaceStep_sent, anySendSuccess]
  simp

theorem addrStep_lastErr (s : LoopState) (a : AddrInfo) :
    (addrStep s a).lastErr = (addrErr a).or s.lastErr := by
  cases a with
  | notIPNet => simp [addrStep, addrErr]
  | ipNet to4 mask outcome =>
      cases to4 with
      | none => simp [addrStep, addrErr]
      | some ip4 => cases outcome <;> simp [addrStep, addrErr]

theorem getLast?_cons_or (a : Nat) (l : List Nat) :
    (a :: l).getLast? = l.getLast?.or (some a) := by
  induction l generalizing a with
  | nil => simp
  | cons b t ih =>
      rw [List.getLast?_cons_cons, ih b]
      cases t.getLast? <;> rfl

theorem foldl_addrStep_lastErr (addrs : List AddrInfo) :
    ∀ s : LoopState,
      (addrs.foldl addrStep s).lastErr = ((addrs.filterMap addrErr).getLast?).or s.lastErr := by
  induction addrs with
  | nil => intro s; simp
  | cons a t ih =>
      intro s
      rw [List.foldl_cons, ih, addrStep_lastErr]
      cases ha : addrErr a with
      | none => simp [List.filterMap_cons, ha]
      | some e =>
          simp only [List.filterMap_cons, ha]
          rw [getLast?_cons_or, Option.or_assoc]

theorem ifaceStep_lastErr (s : LoopState) (i : NetIface) :
    (ifaceStep s i).lastErr = ((ifaceErrList i).getLast?).or s.lastErr := by
  unfold ifaceStep ifaceErrList
  cases h : ifaceEligible i with
  | false => simp
  | true =>
      cases ha : i.addrs with
      | error e => simp
      | ok addrs => simp [foldl_addrStep_lastErr]

theorem foldl_ifaceStep_lastErr (ifaces : List NetIface) :
    ∀ s : LoopState,
      (ifaces.foldl ifaceStep s).lastErr = ((allErrList ifaces).getLast?).or s.lastErr := by
  induction ifaces with
  | nil => intro s; simp [allErrList]
  | cons i t ih =>
      intro s
      rw [List.foldl_cons, ih, ifaceStep_lastErr]
      have hsplit : allErrList (i :: t) = ifaceErrList i ++ allErrList t := by
        simp [allErrList]
      rw [hsplit, List.getLast?_append]
      cases h1 : (allErrList t).getLast? <;> cases h2 : (ifaceErrList i).getLast? <;> simp

theorem sendLoop_lastErr (ifaces : List NetIface) :
    (sendLoop ifaces).lastErr = (allErrList ifaces).getLast? := by
  rw [sendLoop, foldl_ifaceStep_lastErr]
  simp

theorem addrStep_global (s : LoopState) (a : AddrInfo)
    (h : globalTarget ∉ s.attempts) : globalTarget ∉ (addrStep s a).attempts := by
  cases a with
  | notIPNet => exact h
  | ipNet to4 mask outcome =>
      cases to4 with
      | none => exact h
      | some ip4 =>
          cases outcome <;>
            simp only [addrStep, List.mem_append, List.mem_singleton] <;>
            rintro (hmem | hmem) <;> first
              | exact h hmem
              | simp [globalTarget] at hmem

theorem foldl_addrStep_global (addrs : List AddrInfo) :
    ∀ s : LoopState, globalTarget ∉ s.attempts →
      globalTarget ∉ (addrs.foldl addrStep s).attempts := by
  induction addrs with
  | nil => intro s h; exact h
  | cons a t ih => intro s h; exact ih _ (addrStep_global s a h)

theorem ifaceStep_global (s : LoopState) (i : NetIface)
    (h : globalTarget ∉ s.attempts) : globalTarget ∉ (ifaceStep s i).attempts := by
  unfold ifaceStep
  cases ifaceEligible i with
  | false => exact h
  | true =>
      cases i.addrs with
      | error e => exact h
      | ok addrs => exact foldl_addrStep_global addrs s h

theorem sendLoop_global (ifaces : List NetIface) :
    globalTarget ∉ (sendLoop ifaces).attempts := by
  rw [sendLoop]
  have : ∀ s : LoopState, globalTarget ∉ s.attempts →
      globalTarget ∉ (ifaces.foldl ifaceStep s).attempts := by
    induction ifaces with
    | nil => intro s h; exact h
    | cons i t ih => intro s h; exact ih _ (ifaceStep_global s i h)
  exact this _ (by simp)

/-- helper: broadcastRun under a successful enumeration with no successful send -/
theorem broadcastRun_no_success (w : BroadcastWorld) (ifaces : List NetIface)
    (hifc : w.interfaces = .ok ifaces) (hnone : anySendSuccess ifaces = false) :
    (broadcastRun w).2 = (sendLoop ifaces).attempts ++ [globalTarget] := by
  have hsent : (sendLoop ifaces).sent = false := by rw [sendLoop_sent]; exact hnone
  cases hfb : w.fallback with
  | dialErr e =>
      cases hlast : (sendLoop ifaces).lastErr <;>
        simp [broadcastRun, hifc, hsent, hfb, hlast]
  | writeErr e => simp [broadcastRun, hifc, hsent, hfb]
  | ok => simp [broadcastRun, hifc, hsent, hfb]

/-- C3: when interface enumeration succeeds and at least one interface send
succeeds, Broadcast returns success regardless of the other outcomes, and
the global-broadcast fallback is not attempted. -/
theorem C3_partial_success (w : BroadcastWorld) (ifaces : List NetIface)
    (hifc : w.interfaces = .ok ifaces) (hok : anySendSuccess ifaces = true) :
    (broadcastRun w).1 = .success ∧ globalTarget ∉ (broadcastRun w).2 := by
  have hsent : (sendLoop ifaces).sent = true := by rw [sendLoop_sent]; exact hok
  constructor
  · simp [broadcastRun, hifc, hsent]
  · simp only [broadcastRun, hifc, hsent, if_true]
    exact sendLoop_global ifaces

/-- C4: when enumeration succeeds but no per-interface send succeeds,
exactly one fallback send to 255.255.255.255 port 9 is attempted, and if
that fallback succeeds Broadcast returns success. -/
theorem C4_global_fallback (w : BroadcastWorld) (ifaces : List NetIface)
    (hifc : w.interfaces = .ok ifaces) (hnone : anySendSuccess ifaces = false) :
    (broadcastRun w).2.count globalTarget = 1 ∧
    (w.fallback = .ok → (broadcastRun w).1 = .success) := by
  have hsent : (sendLoop ifaces).sent = false := by rw [sendLoop_sent]; exact hnone
  constructor
  · rw [broadcastRun_no_success w ifaces hifc hnone, List.count_append]
    have h0 : (sendLoop ifaces).attempts.count globalTarget = 0 :=
      List.count_eq_zero.mpr (sendLoop_global ifaces)
    simp [h0]
  · intro hfb
    simp [broadcastRun, hifc, hsent, hfb]

/-- C5 (amended): when the fallback is attempted and its write fails, that
write error is returned verbatim; when the fallback dial fails, the most
recently recorded per-interface send error is returned in wrapped form if
one exists, and only otherwise the fallback dial error itself; the
enumeration error is returned only when enumeration itself failed. -/
theorem C5_error_surfacing (w : BroadcastWorld) :
    (∀ ifaces, w.interfaces = .ok ifaces → anySendSuccess ifaces = false →
       (∀ e, w.fallback = .writeErr e → (broadcastRun w).1 = .rawErr e) ∧
       (∀ e l, w.fallback = .dialErr e → (allErrList ifaces).getLast? = some l →
           (broadcastRun w).1 = .wrappedErr l) ∧
       (∀ e, w.fallback = .dialErr e → (allErrList ifaces).getLast? = none →
           (broadcastRun w).1 = .rawErr e)) ∧
    (∀ e, w.interfaces = .error e → (broadcastRun w).1 = .rawErr e) := by
  constructor
  · intro ifaces hifc hnone
    have hsent : (sendLoop ifaces).sent = false := by rw [sendLoop_sent]; exact hnone
    refine ⟨?_, ?_, ?_⟩
    · intro e hfb; simp [broadcastRun, hifc, hsent, hfb]
    · intro e l hfb hlast
      have h2 : (sendLoop ifaces).lastErr = some l := by rw [sendLoop_lastErr]; exact hlast
      simp [broadcastRun, hifc, hsent, hfb, h2]
    · intro e hfb hlast
      have h2 : (sendLoop ifaces).lastErr = none := by rw [sendLoop_lastErr]; exact hlast
      simp [broadcastRun, hifc, hsent, hfb, h2]
  · intro e h; simp [broadcastRun, h]

/-- Counterexample to C5 as stated: the interface send fails with error 7,
the fallback dial fails with error 9, and Broadcast returns a wrapping of
error 7 — not the fallback attempt error 9. -/
theorem C5_error_surfacing_counterexample :
    (broadcastRun wC5).1 = .wrappedErr 7 ∧ (broadcastRun wC5).1 ≠ .rawErr 9 := by
  constructor
  · rfl
  · intro h
    rw [(rfl : (broadcastRun wC5).1 = .wrappedErr 7)] at h
    exact BroadcastResult.noConfusion h

/-- Witness for C3: one failing and one succeeding interface send. -/
theorem C3_partial_success_witness :
    anySendSuccess [ifBad, ifGood] = true ∧
    (broadcastRun wTwoIfaces).1 = .success ∧ globalTarget ∉ (broadcastRun wTwoIfaces).2 :=
  ⟨rfl, C3_partial_success wTwoIfaces [ifBad, ifGood] rfl rfl⟩

/-- Witness for C4: the only interface send fails, the fallback succeeds. -/
theorem C4_global_fallback_witness :
    anySendSuccess [ifBad] = false ∧
    ((broadcastRun wAllFail).2.count globalTarget = 1 ∧
      (wAllFail.fallback = .ok → (broadcastRun wAllFail).1 = .success)) :=
  ⟨rfl, C4_global_fallback wAllFail [ifBad] rfl rfl⟩

/-- Witness for the amended C5 at the same concrete run. -/
theorem C5_error_surfacing_witness :
    (broadcastRun wC5).1 = .wrappedErr 7 :=
  ((C5_error_surfacing wC5).1 [ifBad] rfl rfl).2.1 9 7 rfl rfl

/-- C6: when interface enumeration itself fails, Broadcast returns that
enumeration error verbatim and attempts no send at all. -/
theorem C6_enumeration_failure (w : BroadcastWorld) (e : Nat) (h : w.interfaces = .error e) :
    (broadcastRun w).1 = .rawErr e ∧ (broadcastRun w).2 = [] := by
  simp [broadcastRun, h]

/-- Witness for C6: enumeration fails with error 5. -/
theorem C6_enumeration_failure_witness :
    wEnum.interfaces = .error 5 ∧
    ((broadcastRun wEnum).1 = .rawErr 5 ∧ (broadcastRun wEnum).2 = []) :=
  ⟨rfl, C6_enumeration_failure wEnum 5 rfl⟩

theorem range4_map_getD (f : Nat → Nat) (k : Nat) (hk : k < 4) :
    ((List.range 4).map f).getD k 0 = f k := by
  interval_cases k <;> rfl

set_option maxRecDepth 8192 in
theorem xor255 (b : Nat) (hb : b < 256) : 255 ^^^ b = 255 - b := by
  have h : ∀ x : Fin 256, 255 ^^^ (x : Nat) = 255 - (x : Nat) := by decide
  exact h ⟨b, hb⟩

theorem narrowMask_length (ip mask : List Nat) (hip : ip.length = 4)
    (hm : mask.length = 4 ∨ mask.length = 16) : (narrowMask ip mask).length = 4 := by
  rcases hm with h | h <;> simp [narrowMask, h, hip]

theorem narrowMask_mem (ip mask : List Nat) (b : Nat) (hb : b ∈ narrowMask ip mask) :
    b ∈ mask := by
  unfold narrowMask at hb
  split at hb
  · exact List.mem_of_mem_drop hb
  · exact hb

/-- C7: for every eligible 4-byte address and 4- or 16-byte mask of byte
values, every octet of the computed directed-broadcast target is
ip[i] OR (complement of the narrowed mask byte), and the two concrete
examples of the spec hold. -/
theorem C7_broadcast_address (ip mask : List Nat) (hip : ip.length = 4)
    (hm : mask.length = 4 ∨ mask.length = 16) (hb : ∀ b ∈ mask, b < 256) :
    (∀ i : Fin 4,
        (computeBroadcastIP ip (narrowMask ip mask)).getD (i : Nat) 0
          = Nat.lor (ip.getD (i : Nat) 0) (255 - (narrowMask ip mask).getD (i : Nat) 0)) ∧
    computeBroadcastIP [192, 168, 1, 42] (narrowMask [192, 168, 1, 42] [255, 255, 255, 0])
        = [192, 168, 1, 255] ∧
    computeBroadcastIP [10, 0, 0, 5] (narrowMask [10, 0, 0, 5] [255, 0, 0, 0])
        = [10, 255, 255, 255] := by
  refine ⟨?_, by decide, by decide⟩
  intro i
  have hcb : computeBroadcastIP ip (narrowMask ip mask)
      = (List.range 4).map
          (fun k => Nat.lor (ip.getD k 0) (255 ^^^ ((narrowMask ip mask).getD k 0 % 256))) := by
    rw [computeBroadcastIP, hip]
  have hnl : (narrowMask ip mask).length = 4 := narrowMask_length ip mask hip hm
  have hd : (narrowMask ip mask).getD (i : Nat) 0 < 256 := by
    have hlt : (i : Nat) < (narrowMask ip mask).length := by rw [hnl]; exact i.isLt
    rw [List.getD_eq_getElem _ _ hlt]
    exact hb _ (narrowMask_mem ip mask _ (List.getElem_mem hlt))
  rw [hcb, range4_map_getD _ _ i.isLt, Nat.mod_eq_of_lt hd, xor255 _ hd]

/-- Witness for C7 at ip 192.168.1.42, mask 255.255.255.0. -/
theorem C7_broadcast_address_witness :
    ((computeBroadcastIP [192, 168, 1, 42]
        (narrowMask [192, 168, 1, 42] [255, 255, 255, 0])).getD 2 0
      = Nat.lor (([192, 168, 1, 42] : List Nat).getD 2 0)
          (255 - (narrowMask [192, 168, 1, 42] [255, 255, 255, 0]).getD 2 0)) ∧
    computeBroadcastIP [192, 168, 1, 42] (narrowMask [192, 168, 1, 42] [255, 255, 255, 0])
      = [192, 168, 1, 255] :=
  ⟨(C7_broadcast_address [192, 168, 1, 42] [255, 255, 255, 0] rfl (Or.inl rfl) (by decide)).1 ⟨2, by decide⟩,
   (C7_broadcast_address [192, 168, 1, 42] [255, 255, 255, 0] rfl (Or.inl rfl) (by decide)).2.1⟩

theorem lookup_statusFold_untouched (w : PingWorld) (priv : Bool) (machines : List Machine) :
    ∀ (acc : List (String × String)) (n : String),
      (∀ m ∈ machines, m.name ≠ n) →
      (machines.foldl (statusFoldStep w priv) acc).lookup n = acc.lookup n := by
  induction machines with
  | nil => intro acc n _; rfl
  | cons x t ih =>
      intro acc n h
      rw [List.foldl_cons, ih _ n (fun m' hm' => h m' (List.mem_cons_of_mem _ hm'))]
      unfold statusFoldStep
      cases hst : (getMachineStatus w priv x).1 with
      | mk status err =>
        cases err with
        | some e => rfl
        | none =>
            have hne : x.name ≠ n := h x (List.mem_cons_self _ _)
            have : (n == x.name) = false := beq_eq_false_iff_ne.mpr (Ne.symm hne)
            simp [List.lookup, this]

theorem lookup_statusFold (w : PingWorld) (priv : Bool) (machines : List Machine) :
    ∀ (acc : List (String × String)) (m : Machine), m ∈ machines →
      (machines.map Machine.name).Nodup →
      (machines.foldl (statusFoldStep w priv) acc).lookup m.name =
        (match (getMachineStatus w priv m).1 with
         | (_, some _) => acc.lookup m.name
         | (status, none) => some status) := by
  induction machines with
  | nil => intro acc m hm _; exact absurd hm (List.not_mem_nil m)
  | cons x t ih =>
      intro acc m hm hnd
      rw [List.foldl_cons]
      have hnd1 : x.name ∉ t.map Machine.name := by
        rw [List.map_cons, List.nodup_cons] at hnd
        exact hnd.1
      have hnd2 : (t.map Machine.name).Nodup := by
        rw [List.map_cons, List.nodup_cons] at hnd
        exact hnd.2
      rcases List.mem_cons.mp hm with rfl | hmt
      · have hnames : ∀ m' ∈ t, m'.name ≠ m.name := by
          intro m' hm' heq
          exact hnd1 (heq ▸ List.mem_map_of_mem Machine.name hm')
        rw [lookup_statusFold_untouched w priv t _ _ hnames]
        unfold statusFoldStep
        cases hst : (getMachineStatus w priv m).1 with
        | mk status err =>
          cases err with
          | some e => rfl
          | none => simp [List.lookup]
      · rw [ih _ m hmt hnd2]
        have hxm : x.name ≠ m.name := by
          intro heq
          exact hnd1 (heq ▸ List.mem_map_of_mem Machine.name hmt)
        cases hst : (getMachineStatus w priv m).1 with
        | mk status err =>
          cases err with
          | none => rfl
          | some e =>
              unfold statusFoldStep
              cases hsx : (getMachineStatus w priv x).1 with
              | mk sx ex =>
                cases ex with
                | some e2 => rfl
                | none =>
                    have : (m.name == x.name) = false := beq_eq_false_iff_ne.mpr (Ne.symm hxm)
                    simp [List.lookup, this]

/-- C2 (amended): with pairwise distinct machine names, a machine whose
status computation reports no error has its status in the map, while a
machine whose probe fails is omitted from the map entirely (it is not
reported as unknown); no error propagates, the function being total into
a plain map. -/
theorem C2_status_map (w : PingWorld) (priv : Bool) (machines : List Machine)
    (m : Machine) (hm : m ∈ machines) (hnd : (machines.map Machine.name).Nodup) :
    ((getMachineStatus w priv m).1.2 = none →
        (getMachinesStatus w priv machines).lookup m.name
          = some (getMachineStatus w priv m).1.1) ∧
    (∀ e, (getMachineStatus w priv m).1.2 = some e →
        (getMachinesStatus w priv machines).lookup m.name = none) := by
  have h := lookup_statusFold w priv machines [] m hm hnd
  rw [getMachinesStatus]
  cases hst : (getMachineStatus w priv m).1 with
  | mk status err =>
    rw [hst] at h
    constructor
    · intro hnone
      have h2 : err = none := hnone
      subst h2
      exact h
    · intro e he
      have h2 : err = some e := he
      subst h2
      exact h

/-- Counterexample to C2 as stated: with one machine whose pinger
construction fails, the result map has no entry for it at all, rather
than an unknown entry. -/
theorem C2_status_map_counterexample :
    (getMachinesStatus pingErrW true [mAlpha]).lookup "alpha" = none ∧
    (getMachinesStatus pingErrW true [mAlpha]).lookup "alpha" ≠ some "unknown" := by
  refine ⟨rfl, ?_⟩
  intro h
  rw [(rfl : (getMachinesStatus pingErrW true [mAlpha]).lookup "alpha" = (none : Option String))] at h
  exact Option.noConfusion h

/-- Witness for the amended C2: a successfully probed machine appears in
the map as online. -/
theorem C2_status_map_witness :
    mBeta ∈ [mBeta] ∧
    (getMachinesStatus pingOkW true [mBeta]).lookup mBeta.name = some "online" := by
  constructor
  · exact List.mem_singleton.mpr rfl
  · have h := (C2_status_map pingOkW true [mBeta] mBeta (List.mem_singleton.mpr rfl)
      (by simp)).1 rfl
    simpa using h

/-- C8: a machine with no configured address is unknown immediately with no
probe; a machine with an address gets exactly one probe with a 2-second
timeout and count 1, and when the run reports n received packets the
status is online iff n is positive and offline iff n is zero. -/
theorem C8_machine_status (w : PingWorld) (priv : Bool) (m : Machine) :
    (m.ip = none →
        (getMachineStatus w priv m).1 = ("unknown", none) ∧
        (getMachineStatus w priv m).2 = []) ∧
    (∀ addr, m.ip = some addr → w.newPinger addr = .ok () →
       (getMachineStatus w priv m).2
           = [(addr, { timeoutSeconds := 2, count := 1, privileged := priv })] ∧
       (∀ n, w.runPing addr { timeoutSeconds := 2, count := 1, privileged := priv } = .ok n →
          ((getMachineStatus w priv m).1.1 = "online" ↔ 0 < n) ∧
          ((getMachineStatus w priv m).1.1 = "offline" ↔ n = 0))) := by
  constructor
  · intro hip
    simp [getMachineStatus, hip]
  · intro addr hip hnp
    have hgm : getMachineStatus w priv m =
        match isAddressReachable w priv addr with
        | (.error e, tr) => (("unknown", some e), tr)
        | (.ok true, tr) => (("online", none), tr)
        | (.ok false, tr) => (("offline", none), tr) := by
      rw [getMachineStatus, hip]
    cases hr : w.runPing addr { timeoutSeconds := 2, count := 1, privileged := priv } with
    | error e =>
        have hia : isAddressReachable w priv addr =
            (.error (.pinging e), [(addr, { timeoutSeconds := 2, count := 1, privileged := priv })]) := by
          rw [isAddressReachable, hnp]
          simp [hr]
        rw [hia] at hgm
        refine ⟨by rw [hgm], ?_⟩
        intro n hn
        exact absurd hn (by simp)
    | ok recvd =>
        have hia : isAddressReachable w priv addr =
            ((if recvd = 0 then .ok false else .ok true),
              [(addr, { timeoutSeconds := 2, count := 1, privileged := priv })]) := by
          rw [isAddressReachable, hnp]
          simp [hr]
        by_cases hz : recvd = 0
        · rw [if_pos hz] at hia
          rw [hia] at hgm
          have hgm2 : getMachineStatus w priv m =
              (("offline", none), [(addr, { timeoutSeconds := 2, count := 1, privileged := priv })]) := by
            rw [hgm]
          refine ⟨by rw [hgm2], ?_⟩
          intro n hn
          have hrn : n = recvd := by
            injection hn with h2
            exact h2.symm
          subst hrn
          subst hz
          rw [hgm2]
          refine ⟨?_, ?_⟩ <;> simp
        · rw [if_neg hz] at hia
          rw [hia] at hgm
          have hgm2 : getMachineStatus w priv m =
              (("online", none), [(addr, { timeoutSeconds := 2, count := 1, privileged := priv })]) := by
            rw [hgm]
          refine ⟨by rw [hgm2], ?_⟩
          intro n hn
          have hrn : n = recvd := by
            injection hn with h2
            exact h2.symm
          subst hrn
          rw [hgm2]
          constructor
          · simp only []
            constructor
            · intro _; omega
            · intro _; trivial
          · constructor
            · intro hs; exact absurd hs (by simp)
            · intro hzz; exact absurd hzz hz

/-- Witness for C8: a probed machine that receives one reply is online. -/
theorem C8_machine_status_witness :
    ((getMachineStatus pingOkW true mBeta).2
        = [("10.0.0.2", { timeoutSeconds := 2, count := 1, privileged := true })]) ∧
    ((getMachineStatus pingOkW true mBeta).1.1 = "online" ↔ 0 < 1) := by
  have h := (C8_machine_status pingOkW true mBeta).2 "10.0.0.2" rfl rfl
  exact ⟨h.1, (h.2 1 rfl).1⟩

end Wol
